import Mathlib

/-!
Verification development for the note0 offline-first note application.

The definitions below are a shallow embedding of the TypeScript source:

* `src/types/note.ts` — the data model (`Note`, `NoteTree`, inputs, filters);
* the zustand notes store (`useNotesStore`) — state shape, initial state and
  the actions `createNote`, `updateNote`, `deleteNote`, `moveNote`,
  `buildNoteTree`, `addToOfflineQueue`, `processOfflineQueue`,
  `clearOfflineQueue`, `reset`;
* the `useNoteHierarchy` hook — `getDescendants`, `canMoveNote`;
* `src/lib/hooks/use-sync.ts` — `scheduleRetry` and the retry counter
  handling of `sync` / `retryFailedSync`;
* `src/lib/constants.ts` — `SYNC_CONFIG`.

Conventions: JavaScript `string | null` fields become `Option String`
(`none` = `null`; empty-string truthiness quirks of `!x` are not
distinguished), ISO-8601 timestamps stay opaque `String`s supplied by the
caller (`now` parameters stand for `new Date().toISOString()`), generated
identifiers are supplied as `fresh…` parameters (`generateId()`), numbers
become `Int` (positions) or `Nat` (counts, delays).  The remote Supabase
client `db.notes` is an external collaborator and is modelled as a `Repo`
record of fallible functions; calls issued to it are logged explicitly.
`localStorage` mirroring (`NoteStorage.*`) is a fire-and-forget external
side effect with no influence on store state and is not modelled.
Recursive tree walks (`buildTreeNode`, `getDescendants`) recurse through
parent links with no occurs check in the source; the embedding bounds them
with fuel, and `notes.length` fuel is exact for every collection on which
the source terminates (duplicate-free ids).
-/

/-- `SyncStatus` from `src/types/note.ts`:
`'synced' | 'pending' | 'syncing' | 'error' | 'offline'`. -/
inductive SyncStatus where
  | synced
  | pending
  | syncing
  | error
  | offline
deriving DecidableEq, Repr

/-- `NoteMetadata` from `src/types/note.ts` (the open-ended
`custom_properties` record is untyped in the source and omitted). -/
structure NoteMetadata where
  created_by : Option String := none
  last_modified_by : Option String := none
  color : Option String := none
  icon : Option String := none
  cover_image : Option String := none
deriving DecidableEq, Repr

/-- `Note` from `src/types/note.ts`. -/
structure Note where
  id : String
  title : String
  content : String
  summary : Option String := none
  created_at : String
  updated_at : String
  parent_id : Option String := none
  position : Int
  is_archived : Bool
  is_favorite : Bool
  tags : List String
  word_count : Nat
  character_count : Nat
  estimated_read_time : Nat
  last_sync_at : Option String := none
  sync_status : SyncStatus
  version : Nat
  metadata : NoteMetadata := {}
deriving DecidableEq, Repr

/-- `NoteTree` from `src/types/note.ts`: the materialized tree node.  A
nested inductive because `children` holds the same shape. -/
inductive NoteTree where
  | mk (id : String) (title : String) (parent_id : Option String)
      (position : Int) (is_archived : Bool) (children : List NoteTree)
      (depth : Nat) (path : List String)

def NoteTree.id : NoteTree → String
  | .mk i _ _ _ _ _ _ _ => i

def NoteTree.title : NoteTree → String
  | .mk _ t _ _ _ _ _ _ => t

def NoteTree.parent_id : NoteTree → Option String
  | .mk _ _ p _ _ _ _ _ => p

def NoteTree.position : NoteTree → Int
  | .mk _ _ _ p _ _ _ _ => p

def NoteTree.is_archived : NoteTree → Bool
  | .mk _ _ _ _ a _ _ _ => a

def NoteTree.children : NoteTree → List NoteTree
  | .mk _ _ _ _ _ c _ _ => c

def NoteTree.depth : NoteTree → Nat
  | .mk _ _ _ _ _ _ d _ => d

def NoteTree.path : NoteTree → List String
  | .mk _ _ _ _ _ _ _ p => p

/-- `CreateNoteInput` from `src/types/note.ts`.  The store only reads
`parent_id` through `input.parent_id || null`, so the absent and `null`
cases are collapsed into one `Option`. -/
structure CreateNoteInput where
  title : String
  content : Option String := none
  parent_id : Option String := none
  position : Option Int := none
  tags : Option (List String) := none
  metadata : Option NoteMetadata := none
deriving DecidableEq, Repr

/-- `UpdateNoteInput` from `src/types/note.ts`.  `parent_id?: string | null`
is tri-state (absent / null / value) because the object spread
`{ ...existingNote, ...input }` distinguishes absent from `null`; hence
`Option (Option String)`. -/
structure UpdateNoteInput where
  id : String
  title : Option String := none
  content : Option String := none
  parent_id : Option (Option String) := none
  position : Option Int := none
  is_archived : Option Bool := none
  is_favorite : Option Bool := none
  tags : Option (List String) := none
  metadata : Option NoteMetadata := none
deriving DecidableEq, Repr

/-- `sort_by` variants of `NotesFilter`. -/
inductive NotesSortBy where
  | created_at
  | updated_at
  | title
  | position
deriving DecidableEq, Repr

/-- `sort_order` variants of `NotesFilter`. -/
inductive NotesSortOrder where
  | asc
  | desc
deriving DecidableEq, Repr

/-- `NotesFilter` from `src/types/note.ts`; `{}` is the all-`none` record. -/
structure NotesFilter where
  search_query : Option String := none
  tags : Option (List String) := none
  is_archived : Option Bool := none
  is_favorite : Option Bool := none
  parent_id : Option (Option String) := none
  created_after : Option String := none
  created_before : Option String := none
  updated_after : Option String := none
  updated_before : Option String := none
  sort_by : Option NotesSortBy := none
  sort_order : Option NotesSortOrder := none
  limit : Option Nat := none
  offset : Option Nat := none
deriving DecidableEq, Repr

/-- `viewMode: 'grid' | 'list' | 'tree'` of the store. -/
inductive ViewMode where
  | grid
  | list
  | tree
deriving DecidableEq, Repr

/-- Tagged payload of one offline-queue entry.  The source stores a string
`operation` kind next to an untyped `data` blob and always matches them up
(`'create'` ↔ `CreateNoteInput`, `'update'` ↔ `UpdateNoteInput`,
`'delete'` ↔ `{ id }`); the embedding fuses the two fields into one tagged
variant. -/
inductive OpData where
  | createData (input : CreateNoteInput)
  | updateData (input : UpdateNoteInput)
  | deleteData (id : String)
deriving DecidableEq, Repr

/-- One entry of `offlineQueue`:
`{ id, operation: 'create'|'update'|'delete', data, timestamp }`. -/
structure OfflineOperation where
  id : String
  operation : OpData
  timestamp : String
deriving DecidableEq, Repr

/-- The state portion of `NotesState` in the store (the `actions` record is
the operations defined below).  `expandedNotes` is a JS `Set<string>`,
modelled as its list of elements. -/
structure NotesState where
  notes : List Note
  selectedNoteId : Option String
  loading : Bool
  error : Option String
  searchQuery : String
  searchResults : List Note
  filters : NotesFilter
  noteTree : List NoteTree
  expandedNotes : List String
  syncStatus : SyncStatus
  isOnline : Bool
  lastSyncAt : Option String
  offlineQueue : List OfflineOperation
  sidebarCollapsed : Bool
  viewMode : ViewMode

/-- The initial state literal of the store (lines 103–117). -/
def initialState : NotesState where
  notes := []
  selectedNoteId := none
  loading := false
  error := none
  searchQuery := ""
  searchResults := []
  filters := {}
  noteTree := []
  expandedNotes := []
  syncStatus := .synced
  isOnline := true
  lastSyncAt := none
  offlineQueue := []
  sidebarCollapsed := false
  viewMode := .grid

/-- The external `db.notes` repository capability (`NoteRepository` in the
spec): remote create/update/delete, each of which may reject. -/
structure Repo where
  create : CreateNoteInput → Except String Note
  update : UpdateNoteInput → Except String Note
  delete : String → Except String Unit

/-- A record of one remote call issued while draining the queue. -/
inductive RepoCall where
  | createCall (input : CreateNoteInput)
  | updateCall (input : UpdateNoteInput)
  | deleteCall (id : String)
deriving DecidableEq, Repr

/-- The stable ascending sort `.sort((a, b) => a.position - b.position)`
used on sibling groups.  JavaScript `Array.prototype.sort` is stable, and a
stable ascending sort over a total preorder has a unique result, here given
by insertion sort. -/
def sortByPosition (l : List Note) : List Note :=
  l.insertionSort (fun a b => a.position ≤ b.position)

instance : IsTotal Note (fun a b => a.position ≤ b.position) :=
  ⟨fun a b => Int.le_total a.position b.position⟩

instance : IsTrans Note (fun a b => a.position ≤ b.position) :=
  ⟨fun _ _ _ h h' => Int.le_trans h h'⟩

/-- `buildTreeNode` from the store's `buildNoteTree` action: children are
the notes whose `parent_id` equals this note's id, sorted by position, each
built one level deeper.  The source recurses with no occurs check; `fuel`
bounds the recursion (on fuel exhaustion the node is emitted with no
children, a case that is unreachable from the roots of a duplicate-free
collection when started with `notes.length` fuel). -/
def buildTreeNode (notes : List Note) : Nat → Note → Nat → NoteTree
  | 0, note, depth =>
      .mk note.id note.title note.parent_id note.position note.is_archived
        [] depth []
  | fuel + 1, note, depth =>
      .mk note.id note.title note.parent_id note.position note.is_archived
        ((sortByPosition (notes.filter (fun n => n.parent_id == some note.id))).map
          (fun child => buildTreeNode notes fuel child (depth + 1)))
        depth []

/-- `buildNoteTree` (pure part): roots are the notes with no parent, sorted
by position, each materialized at depth 0. -/
def buildNoteTree (notes : List Note) : List NoteTree :=
  (sortByPosition (notes.filter (fun note => note.parent_id.isNone))).map
    (fun note => buildTreeNode notes notes.length note 0)

/-- The `buildNoteTree` store action: recompute `noteTree` from `notes`. -/
def buildNoteTreeAction (s : NotesState) : NotesState :=
  { s with noteTree := buildNoteTree s.notes }

/-- `addToOfflineQueue`: push the operation onto the queue (the
localStorage mirror write is an external side effect). -/
def addToOfflineQueue (op : OfflineOperation) (s : NotesState) : NotesState :=
  { s with offlineQueue := s.offlineQueue ++ [op] }

/-- `clearOfflineQueue`: empty the queue. -/
def clearOfflineQueue (s : NotesState) : NotesState :=
  { s with offlineQueue := [] }

/-- One iteration of the `processOfflineQueue` loop body: issue the remote
call matching the operation kind; the `Bool` records whether the call
succeeded (a rejection is caught, logged to the console and the loop
`continue`s — the result has no other effect). -/
def applyQueueOp (repo : Repo) (op : OfflineOperation) : RepoCall × Bool :=
  match op.operation with
  | .createData input => (.createCall input, (repo.create input).isOk)
  | .updateData input => (.updateCall input, (repo.update input).isOk)
  | .deleteData noteId => (.deleteCall noteId, (repo.delete noteId).isOk)

/-- `processOfflineQueue`: early-return on an empty queue; otherwise every
queued operation is attempted in order (failures are caught and the loop
continues), and afterwards `clearOfflineQueue()` empties the whole queue
unconditionally.  Returns the new state and the log of remote calls with
their success flags. -/
def processOfflineQueue (repo : Repo) (s : NotesState) :
    NotesState × List (RepoCall × Bool) :=
  if s.offlineQueue.length == 0 then (s, [])
  else (clearOfflineQueue s, s.offlineQueue.map (applyQueueOp repo))

/-- The object spread `{ ...existingNote, ...input }` of `updateNote`:
every property present on the input overrides the existing note's. -/
def applyUpdate (n : Note) (input : UpdateNoteInput) : Note :=
  { n with
    id := input.id
    title := input.title.getD n.title
    content := input.content.getD n.content
    parent_id := input.parent_id.getD n.parent_id
    position := input.position.getD n.position
    is_archived := input.is_archived.getD n.is_archived
    is_favorite := input.is_favorite.getD n.is_favorite
    tags := input.tags.getD n.tags
    metadata := input.metadata.getD n.metadata }

/-- The `findIndex` / `state.notes[index] = updatedNote` step of
`updateNote`: replace the first note with the given id, if any. -/
def replaceById (notes : List Note) (noteId : String) (n : Note) : List Note :=
  let index := notes.findIdx (fun m => m.id == noteId)
  if index < notes.length then notes.set index n else notes

/-- `createNote`.  Online: delegate to the repository and push its answer.
Offline: synthesize a local note with `sync_status = 'pending'`, enqueue
the `create` operation, push the note.  Either way the created note is
selected, loading flags are toggled and the tree is rebuilt; a repository
rejection surfaces as `error` and returns `none`. -/
def createNote (repo : Repo) (input : CreateNoteInput)
    (freshNoteId freshOpId now : String) (s : NotesState) :
    NotesState × Option Note :=
  let s0 := { s with loading := true, error := none }
  if s0.isOnline then
    match repo.create input with
    | .ok newNote =>
        let s1 := { s0 with
          notes := s0.notes ++ [newNote]
          selectedNoteId := some newNote.id
          loading := false }
        (buildNoteTreeAction s1, some newNote)
    | .error e => ({ s0 with error := some e, loading := false }, none)
  else
    let newNote : Note :=
      { id := freshNoteId
        title := input.title
        content := input.content.getD ""
        summary := some ""
        created_at := now
        updated_at := now
        last_sync_at := some now
        parent_id := input.parent_id
        position := input.position.getD 0
        is_archived := false
        is_favorite := false
        tags := input.tags.getD []
        word_count := 0
        character_count := (input.content.getD "").length
        estimated_read_time := 1
        sync_status := .pending
        version := 1
        metadata := input.metadata.getD {} }
    let s1 := addToOfflineQueue ⟨freshOpId, .createData input, now⟩ s0
    let s2 := { s1 with
      notes := s1.notes ++ [newNote]
      selectedNoteId := some newNote.id
      loading := false }
    (buildNoteTreeAction s2, some newNote)

/-- `updateNote`.  Online: delegate to the repository and splice its answer
over the first note with the input's id.  Offline: merge the input over the
existing note (error `'Note not found'` if absent), stamp it
`sync_status = 'pending'`, enqueue the `update` operation and splice it in.
No tree rebuild happens here. -/
def updateNote (repo : Repo) (input : UpdateNoteInput)
    (freshOpId now : String) (s : NotesState) : NotesState × Option Note :=
  if s.isOnline then
    match repo.update input with
    | .ok updatedNote =>
        ({ s with notes := replaceById s.notes input.id updatedNote },
          some updatedNote)
    | .error e => ({ s with error := some e }, none)
  else
    match s.notes.find? (fun n => n.id == input.id) with
    | none => ({ s with error := some "Note not found" }, none)
    | some existingNote =>
        let updatedNote :=
          { applyUpdate existingNote input with
            updated_at := now
            sync_status := .pending }
        let s1 := addToOfflineQueue ⟨freshOpId, .updateData input, now⟩ s
        ({ s1 with notes := replaceById s1.notes input.id updatedNote },
          some updatedNote)

/-- The shared tail of `deleteNote` (its final `set` + rebuild + `return
true`): filter the note out of the collection, reset a matching
selection, rebuild the tree. -/
def deleteNoteCommit (noteId : String) (s1 : NotesState) : NotesState × Bool :=
  let s2 := { s1 with
    notes := s1.notes.filter (fun n => n.id != noteId)
    selectedNoteId :=
      if s1.selectedNoteId = some noteId then none else s1.selectedNoteId }
  (buildNoteTreeAction s2, true)

/-- `deleteNote`.  Online: remote delete first (a rejection surfaces as
`error` and returns `false` with nothing removed).  Offline: enqueue the
`delete` operation.  Either way the commit tail then runs. -/
def deleteNote (repo : Repo) (noteId : String) (freshOpId now : String)
    (s : NotesState) : NotesState × Bool :=
  if s.isOnline then
    match repo.delete noteId with
    | .ok _ => deleteNoteCommit noteId s
    | .error e => ({ s with error := some e }, false)
  else
    deleteNoteCommit noteId (addToOfflineQueue ⟨freshOpId, .deleteData noteId, now⟩ s)

/-- `moveNote`: an update of `parent_id` / `position` followed by a tree
rebuild.  `updateNote` never throws (it catches internally), so the `catch`
branch of the source is unreachable and the action always returns `true`.
No hierarchy validation of any kind is performed here. -/
def moveNote (repo : Repo) (noteId : String) (newParentId : Option String)
    (newPosition : Int) (freshOpId now : String) (s : NotesState) :
    NotesState × Bool :=
  let input : UpdateNoteInput :=
    { id := noteId, parent_id := some newParentId, position := some newPosition }
  let s1 := (updateNote repo input freshOpId now s).1
  (buildNoteTreeAction s1, true)

/-- The `reset` action (store lines 714–731): restore every field it lists
to its initial value.  `isOnline` and `lastSyncAt` are not among them. -/
def reset (s : NotesState) : NotesState :=
  { s with
    notes := []
    selectedNoteId := none
    loading := false
    error := none
    searchQuery := ""
    searchResults := []
    filters := {}
    noteTree := []
    expandedNotes := []
    syncStatus := .synced
    offlineQueue := []
    sidebarCollapsed := false
    viewMode := .grid }

/-- `getDescendants` from `useNoteHierarchy`: each direct child followed by
its own descendants.  Fuel bounds the source's unchecked recursion. -/
def getDescendants (notes : List Note) : Nat → String → List Note
  | 0, _ => []
  | fuel + 1, noteId =>
      (notes.filter (fun n => n.parent_id == some noteId)).flatMap
        (fun child => child :: getDescendants notes fuel child.id)

/-- `getDescendants` at its call sites (full collection as fuel). -/
def getDescendantsTop (notes : List Note) (noteId : String) : List Note :=
  getDescendants notes notes.length noteId

/-- `canMoveNote` from `useNoteHierarchy`: a move is allowed unless the
target is the note itself or one of its descendants.  Exposed to the UI
only — `moveNote` never consults it. -/
def canMoveNote (notes : List Note) (noteId : String)
    (targetParentId : Option String) : Bool :=
  if targetParentId == some noteId then false
  else !(getDescendantsTop notes noteId).any (fun d => some d.id == targetParentId)

/-- `SYNC_CONFIG` from `src/lib/constants.ts`. -/
structure SyncConfigT where
  SYNC_INTERVAL : Nat
  RETRY_ATTEMPTS : Nat
  RETRY_DELAY : Nat
  OFFLINE_RETRY_DELAY : Nat
  CONFLICT_RESOLUTION : String
  BATCH_SIZE : Nat
deriving DecidableEq, Repr

def SYNC_CONFIG : SyncConfigT where
  SYNC_INTERVAL := 30000
  RETRY_ATTEMPTS := 3
  RETRY_DELAY := 1000
  OFFLINE_RETRY_DELAY := 5000
  CONFLICT_RESOLUTION := "last_write_wins"
  BATCH_SIZE := 50

/-- The retry bookkeeping of `useSync`: the consecutive-failure counter
(`retryCountRef`), the engine status, and the delay of the currently
scheduled retry timer, if one is pending. -/
structure SyncRetryState where
  retryCount : Nat
  status : SyncStatus
  scheduledRetryDelay : Option Nat
deriving DecidableEq, Repr

/-- `scheduleRetry` from `use-sync.ts`: once the counter has reached
`RETRY_ATTEMPTS` no retry is scheduled; otherwise the delay is
`RETRY_DELAY * 2 ^ retryCount` and the counter is incremented. -/
def scheduleRetry (e : SyncRetryState) : SyncRetryState :=
  if e.retryCount ≥ SYNC_CONFIG.RETRY_ATTEMPTS then
    { e with scheduledRetryDelay := none }
  else
    { e with
      scheduledRetryDelay := some (SYNC_CONFIG.RETRY_DELAY * 2 ^ e.retryCount)
      retryCount := e.retryCount + 1 }

/-- The `catch` branch of `sync()`: status becomes `'error'`, then
`scheduleRetry()` runs. -/
def syncFailure (e : SyncRetryState) : SyncRetryState :=
  scheduleRetry { e with status := .error }

/-- The tail of a successful `sync()`: status `'synced'`, counter reset. -/
def syncSuccess (e : SyncRetryState) : SyncRetryState :=
  { e with status := .synced, retryCount := 0, scheduledRetryDelay := none }

/-- The counter handling of `retryFailedSync`: the pending retry timer is
cleared and the attempt counter reset to 0 (after which `sync()` runs). -/
def manualRetryReset (e : SyncRetryState) : SyncRetryState :=
  { e with retryCount := 0, scheduledRetryDelay := none }

/-- Engine bookkeeping before any failure. -/
def initSyncRetry : SyncRetryState where
  retryCount := 0
  status := .synced
  scheduledRetryDelay := none

/-- One *failing* sync cycle of `sync()`, store state included.  In the
source the only step of the cycle that can throw is the initial
`supabaseUtils.checkConnection()` reachability probe (on `false` the code
throws `'No connection to database'`): `processOfflineQueue` wraps each
operation in its own try/catch and `continue`s, and `fetchNotes` catches
all of its errors internally, so neither ever rejects.  The `catch` block
therefore runs before the drain step is reached: it sets the store's
`syncStatus` to `'error'` and runs `scheduleRetry()` — the offline queue
and the note collection are never touched on a failing cycle. -/
def syncCycleFailure (e : SyncRetryState) (s : NotesState) :
    SyncRetryState × NotesState :=
  (syncFailure e, { s with syncStatus := .error })

/-- `syncCycleFailure` as a step on the engine/store pair. -/
def syncFailStep (p : SyncRetryState × NotesState) : SyncRetryState × NotesState :=
  syncCycleFailure p.1 p.2

/-- One store mutation issued while offline, with the identifiers and
timestamp its execution consumes. -/
inductive OfflineMutation where
  | mcreate (input : CreateNoteInput) (freshNoteId freshOpId now : String)
  | mupdate (input : UpdateNoteInput) (freshOpId now : String)
  | mdelete (noteId : String) (freshOpId now : String)
deriving DecidableEq, Repr

/-- Run one mutation; the `Bool` is the caller-visible success of the
action (`createNote`/`updateNote` non-null, `deleteNote` true). -/
def applyOfflineMutation (repo : Repo) (m : OfflineMutation) (s : NotesState) :
    NotesState × Bool :=
  match m with
  | .mcreate input freshNoteId freshOpId now =>
      let r := createNote repo input freshNoteId freshOpId now s
      (r.1, r.2.isSome)
  | .mupdate input freshOpId now =>
      let r := updateNote repo input freshOpId now s
      (r.1, r.2.isSome)
  | .mdelete noteId freshOpId now =>
      deleteNote repo noteId freshOpId now s

/-- Run a sequence of mutations, counting the successful ones. -/
def runMutations (repo : Repo) : List OfflineMutation → NotesState → NotesState × Nat
  | [], s => (s, 0)
  | m :: ms, s =>
      let r := applyOfflineMutation repo m s
      let rest := runMutations repo ms r.1
      (rest.1, (if r.2 then 1 else 0) + rest.2)

/-- `s` occurs in `t`: reflexively, or inside one of `t`'s children.  The
"ancestor hops" of the claims are the `child` steps of this relation. -/
inductive SubtreeOf : NoteTree → NoteTree → Prop where
  | refl (t : NoteTree) : SubtreeOf t t
  | child {s c t : NoteTree} : SubtreeOf s c → c ∈ t.children → SubtreeOf s t

/-- `anc` is the ancestor chain of `n` inside `notes`, nearest ancestor
first, ending at a root. -/
def IsAncChain (notes : List Note) : List Note → Note → Prop
  | [], n => n.parent_id = none
  | a :: rest, n => n.parent_id = some a.id ∧ a ∈ notes ∧ IsAncChain notes rest a

/-! ### Concrete fixtures used by counterexamples and witnesses -/

/-- A fixed note returned by repository stubs. -/
def stubNote : Note where
  id := "stub"
  title := "stub"
  content := ""
  created_at := "t0"
  updated_at := "t0"
  position := 0
  is_archived := false
  is_favorite := false
  tags := []
  word_count := 0
  character_count := 0
  estimated_read_time := 1
  sync_status := .synced
  version := 1

/-- The "always succeeds" repository stub of the spec's testable
properties. -/
def alwaysOkRepo : Repo where
  create := fun _ => .ok stubNote
  update := fun _ => .ok stubNote
  delete := fun _ => .ok ()

/-- A repository whose `create` rejects while `update`/`delete` succeed. -/
def createFailRepo : Repo where
  create := fun _ => .error "network unreachable"
  update := fun _ => .ok stubNote
  delete := fun _ => .ok ()

def exCreateInput : CreateNoteInput where
  title := "n1"

def exUpdateInput : UpdateNoteInput where
  id := "b"
  title := some "renamed"

/-- A state holding three queued operations, the first of which the
repository `createFailRepo` will reject. -/
def exQueueState : NotesState :=
  { initialState with
    offlineQueue :=
      [⟨"op1", .createData exCreateInput, "t1"⟩,
       ⟨"op2", .updateData exUpdateInput, "t2"⟩,
       ⟨"op3", .deleteData "c", "t3"⟩] }

/-- A root note. -/
def noteA : Note where
  id := "a"
  title := "A"
  content := ""
  created_at := "t0"
  updated_at := "t0"
  parent_id := none
  position := 0
  is_archived := false
  is_favorite := false
  tags := []
  word_count := 0
  character_count := 0
  estimated_read_time := 1
  sync_status := .synced
  version := 1

/-- A child of `noteA`. -/
def noteB : Note :=
  { noteA with id := "b", title := "B", parent_id := some "a" }

/-- An offline state holding the two-note hierarchy `a → b`. -/
def exMoveState : NotesState :=
  { initialState with isOnline := false, notes := [noteA, noteB] }

/-- A note whose stated parent exists nowhere in the collection. -/
def orphanNote : Note :=
  { noteA with id := "orphan-1", parent_id := some "missing" }

def exOrphanNotes : List Note := [orphanNote]

/-- An archived root note. -/
def archivedNote : Note :=
  { noteA with id := "arch-1", is_archived := true }

def exArchivedNotes : List Note := [archivedNote]

/-! ### C10 — reset -/

/-- C10: the `reset` action restores notes, selection, loading, error,
search query and results, filters, tree, expanded-note set, sync status,
offline queue, sidebar state and view mode to their initial values, while
leaving `isOnline` and `lastSyncAt` untouched. -/
theorem reset_restores_initial_except_connectivity (s : NotesState) :
    reset s = { initialState with isOnline := s.isOnline, lastSyncAt := s.lastSyncAt } :=
  rfl

/-! ### C8 — draining an empty queue -/

/-- C8: draining an empty offline queue is a no-op — the state is returned
unchanged and no repository call is issued. -/
theorem processOfflineQueue_empty_noop (repo : Repo) (s : NotesState)
    (h : s.offlineQueue = []) : processOfflineQueue repo s = (s, []) := by
  simp [processOfflineQueue, h]

/-- Witness for C8 at the initial state. -/
theorem processOfflineQueue_empty_noop_witness :
    initialState.offlineQueue = [] ∧
      processOfflineQueue alwaysOkRepo initialState = (initialState, []) :=
  ⟨rfl, processOfflineQueue_empty_noop alwaysOkRepo initialState rfl⟩

/-! ### C1 — failure handling while draining -/

/-- C1: evaluation of `processOfflineQueue` at a queue of three operations
whose first the repository rejects.  The failed operation is *not*
retained — the queue ends empty — and draining does *not* stop: both later
operations are still attempted (and succeed).  This contradicts the
source's own comment "Keep failed operations in queue for retry": the
unconditional `clearOfflineQueue()` after the loop discards failed
operations, so an operation can be removed without its remote call ever
succeeding. -/
theorem processOfflineQueue_discards_failed_and_continues :
    (createFailRepo.create exCreateInput).isOk = false ∧
    (processOfflineQueue createFailRepo exQueueState).1.offlineQueue = [] ∧
    (processOfflineQueue createFailRepo exQueueState).2 =
      [(.createCall exCreateInput, false),
       (.updateCall exUpdateInput, true),
       (.deleteCall "c", true)] := by
  decide

/-! ### C7 — retry backoff -/

/-- A failed sync always leaves the engine status at `'error'`. -/
lemma syncFailure_status (e : SyncRetryState) : (syncFailure e).status = .error := by
  unfold syncFailure scheduleRetry
  split <;> rfl

/-- The counter after one failure. -/
lemma syncFailure_retryCount (e : SyncRetryState) :
    (syncFailure e).retryCount =
      if SYNC_CONFIG.RETRY_ATTEMPTS ≤ e.retryCount then e.retryCount
      else e.retryCount + 1 := by
  unfold syncFailure scheduleRetry
  split <;> rfl

/-- Below the cap, the scheduled delay doubles with the current counter. -/
lemma syncFailure_delay_of_lt (e : SyncRetryState)
    (h : e.retryCount < SYNC_CONFIG.RETRY_ATTEMPTS) :
    (syncFailure e).scheduledRetryDelay =
      some (SYNC_CONFIG.RETRY_DELAY * 2 ^ e.retryCount) := by
  unfold syncFailure scheduleRetry
  rw [if_neg (not_le.mpr h)]

/-- At or above the cap, no retry is scheduled. -/
lemma syncFailure_delay_of_ge (e : SyncRetryState)
    (h : SYNC_CONFIG.RETRY_ATTEMPTS ≤ e.retryCount) :
    (syncFailure e).scheduledRetryDelay = none := by
  unfold syncFailure scheduleRetry
  rw [if_pos h]

/-- After `n` consecutive failures the retry counter sits at
`min n RETRY_ATTEMPTS`. -/
lemma syncFailure_iterate_retryCount (n : Nat) :
    (syncFailure^[n] initSyncRetry).retryCount = min n SYNC_CONFIG.RETRY_ATTEMPTS := by
  induction n with
  | zero => rfl
  | succ m ih =>
      rw [Function.iterate_succ_apply', syncFailure_retryCount, ih]
      have h3 : SYNC_CONFIG.RETRY_ATTEMPTS = 3 := rfl
      rw [h3]
      split <;> omega

/-- C7 counterexample: after the *first* consecutive failure the scheduled
delay is `RETRY_DELAY × 2^0` (= 1000 ms), not `RETRY_DELAY × 2^1`
(= 2000 ms) as the claim states. -/
theorem first_retry_delay_cex :
    (syncFailure^[1] initSyncRetry).scheduledRetryDelay =
        some (SYNC_CONFIG.RETRY_DELAY * 2 ^ 0) ∧
      (syncFailure^[1] initSyncRetry).scheduledRetryDelay ≠
        some (SYNC_CONFIG.RETRY_DELAY * 2 ^ 1) := by
  decide

/-- Engine-side backoff facts after `n` consecutive failures: status
`'error'`, delay `RETRY_DELAY × 2^(n−1)` up to the cap and nothing beyond
it, counter reset by a manual retry. -/
lemma syncFailure_iterate_backoff (n : Nat) (hn : 1 ≤ n) :
    (syncFailure^[n] initSyncRetry).status = .error ∧
    (syncFailure^[n] initSyncRetry).scheduledRetryDelay =
      (if n ≤ SYNC_CONFIG.RETRY_ATTEMPTS then
        some (SYNC_CONFIG.RETRY_DELAY * 2 ^ (n - 1)) else none) ∧
    (manualRetryReset (syncFailure^[n] initSyncRetry)).retryCount = 0 := by
  obtain ⟨m, rfl⟩ : ∃ m, n = m + 1 := ⟨n - 1, by omega⟩
  have hc := syncFailure_iterate_retryCount m
  have h3 : SYNC_CONFIG.RETRY_ATTEMPTS = 3 := rfl
  rw [Function.iterate_succ_apply']
  refine ⟨syncFailure_status _, ?_, rfl⟩
  by_cases hm : SYNC_CONFIG.RETRY_ATTEMPTS ≤ m
  · rw [syncFailure_delay_of_ge _ (by rw [hc]; omega), if_neg (by omega)]
  · rw [syncFailure_delay_of_lt _ (by rw [hc]; omega), if_pos (by omega), hc]
    have : min m SYNC_CONFIG.RETRY_ATTEMPTS = m + 1 - 1 := by omega
    rw [this]

/-- Iterating failing cycles drives the engine like `syncFailure` alone
and leaves the store untouched except for `syncStatus = 'error'`. -/
lemma syncFailStep_iterate (n : Nat) (e : SyncRetryState) (s : NotesState) :
    (syncFailStep^[n] (e, s)).1 = syncFailure^[n] e ∧
    (syncFailStep^[n] (e, s)).2 =
      (if n = 0 then s else { s with syncStatus := .error }) := by
  induction n generalizing e s with
  | zero => exact ⟨rfl, rfl⟩
  | succ m ih =>
      rw [Function.iterate_succ_apply, Function.iterate_succ_apply]
      have h := ih (syncFailure e) { s with syncStatus := .error }
      exact ⟨h.1, h.2.trans (by cases m <;> rfl)⟩

/-- C7 amended: the retry scheduled after the `n`-th consecutive failed
sync cycle has delay `RETRY_DELAY × 2^(n−1)` (so `2^0 × baseDelay` after
the first failure); once the attempt counter has reached `RETRY_ATTEMPTS`
(from the fourth consecutive failure on) no further retry is scheduled,
leaving the engine in `'error'` with the offline queue — and the whole
note collection — intact (a failing cycle throws at the connectivity
probe, before the drain step); a manual retry resets the attempt counter
to 0. -/
theorem retry_backoff_cap_and_reset (n : Nat) (hn : 1 ≤ n) (s : NotesState) :
    (syncFailStep^[n] (initSyncRetry, s)).1.status = .error ∧
    (syncFailStep^[n] (initSyncRetry, s)).2.syncStatus = .error ∧
    (syncFailStep^[n] (initSyncRetry, s)).2.offlineQueue = s.offlineQueue ∧
    (syncFailStep^[n] (initSyncRetry, s)).2.notes = s.notes ∧
    (syncFailStep^[n] (initSyncRetry, s)).1.scheduledRetryDelay =
      (if n ≤ SYNC_CONFIG.RETRY_ATTEMPTS then
        some (SYNC_CONFIG.RETRY_DELAY * 2 ^ (n - 1)) else none) ∧
    (manualRetryReset (syncFailStep^[n] (initSyncRetry, s)).1).retryCount = 0 := by
  have hp := syncFailStep_iterate n initSyncRetry s
  have he := syncFailure_iterate_backoff n hn
  have hq : (syncFailStep^[n] (initSyncRetry, s)).2 =
      { s with syncStatus := .error } := by
    rw [hp.2, if_neg (by omega)]
  refine ⟨?_, ?_, ?_, ?_, ?_, ?_⟩
  · rw [hp.1]; exact he.1
  · rw [hq]
  · rw [hq]
  · rw [hq]
  · rw [hp.1]; exact he.2.1
  · rw [hp.1]; exact he.2.2

/-- Witness for C7: two failed cycles over a three-entry queue. -/
theorem retry_backoff_cap_and_reset_witness :
    1 ≤ 2 ∧
      ((syncFailStep^[2] (initSyncRetry, exQueueState)).1.status = .error ∧
      (syncFailStep^[2] (initSyncRetry, exQueueState)).2.syncStatus = .error ∧
      (syncFailStep^[2] (initSyncRetry, exQueueState)).2.offlineQueue =
        exQueueState.offlineQueue ∧
      (syncFailStep^[2] (initSyncRetry, exQueueState)).2.notes = exQueueState.notes ∧
      (syncFailStep^[2] (initSyncRetry, exQueueState)).1.scheduledRetryDelay =
        (if 2 ≤ SYNC_CONFIG.RETRY_ATTEMPTS then
          some (SYNC_CONFIG.RETRY_DELAY * 2 ^ (2 - 1)) else none) ∧
      (manualRetryReset (syncFailStep^[2] (initSyncRetry, exQueueState)).1).retryCount
        = 0) :=
  ⟨by decide, retry_backoff_cap_and_reset 2 (by decide) exQueueState⟩

/-! ### Projection lemmas for built tree nodes -/

lemma buildTreeNode_id (notes : List Note) (fuel : Nat) (note : Note) (depth : Nat) :
    (buildTreeNode notes fuel note depth).id = note.id := by
  cases fuel <;> rfl

lemma buildTreeNode_parent (notes : List Note) (fuel : Nat) (note : Note) (depth : Nat) :
    (buildTreeNode notes fuel note depth).parent_id = note.parent_id := by
  cases fuel <;> rfl

lemma buildTreeNode_position (notes : List Note) (fuel : Nat) (note : Note) (depth : Nat) :
    (buildTreeNode notes fuel note depth).position = note.position := by
  cases fuel <;> rfl

lemma buildTreeNode_archived (notes : List Note) (fuel : Nat) (note : Note) (depth : Nat) :
    (buildTreeNode notes fuel note depth).is_archived = note.is_archived := by
  cases fuel <;> rfl

lemma buildTreeNode_depth (notes : List Note) (fuel : Nat) (note : Note) (depth : Nat) :
    (buildTreeNode notes fuel note depth).depth = depth := by
  cases fuel <;> rfl

/-! ### C9 — deleteNote -/

/-- C9: whenever `deleteNote` returns `true`, no note with the deleted
identifier remains in the collection, a matching selection is reset to
`null`, and every note with a different identifier survives. -/
theorem deleteNote_removes_note_and_selection (repo : Repo)
    (noteId freshOpId now : String) (s : NotesState)
    (h : (deleteNote repo noteId freshOpId now s).2 = true) :
    (∀ m ∈ (deleteNote repo noteId freshOpId now s).1.notes, m.id ≠ noteId) ∧
    (s.selectedNoteId = some noteId →
      (deleteNote repo noteId freshOpId now s).1.selectedNoteId = none) ∧
    (∀ m ∈ s.notes, m.id ≠ noteId →
      m ∈ (deleteNote repo noteId freshOpId now s).1.notes) := by
  have key : ∀ s1 : NotesState,
      (∀ m ∈ (deleteNoteCommit noteId s1).1.notes, m.id ≠ noteId) ∧
      (s1.selectedNoteId = some noteId →
        (deleteNoteCommit noteId s1).1.selectedNoteId = none) ∧
      (∀ m ∈ s1.notes, m.id ≠ noteId → m ∈ (deleteNoteCommit noteId s1).1.notes) := by
    intro s1
    refine ⟨?_, ?_, ?_⟩
    · intro m hm
      simp only [deleteNoteCommit, buildNoteTreeAction, List.mem_filter] at hm
      exact bne_iff_ne.mp hm.2
    · intro hsel
      simp only [deleteNoteCommit, buildNoteTreeAction]
      rw [if_pos hsel]
    · intro m hm hne
      simp only [deleteNoteCommit, buildNoteTreeAction, List.mem_filter]
      exact ⟨hm, bne_iff_ne.mpr hne⟩
  unfold deleteNote at h ⊢
  by_cases hon : s.isOnline = true
  · simp only [hon, if_true] at h ⊢
    cases hdel : repo.delete noteId with
    | ok u => exact key s
    | error e =>
        rw [hdel] at h
        exact Bool.noConfusion h
  · have hoff : s.isOnline = false := by
      cases hb : s.isOnline
      · rfl
      · exact absurd hb hon
    simp only [hoff, Bool.false_eq_true, if_false] at h ⊢
    exact key (addToOfflineQueue ⟨freshOpId, .deleteData noteId, now⟩ s)

/-- Witness for C9: deleting the child note of the offline fixture. -/
theorem deleteNote_removes_note_and_selection_witness :
    (deleteNote alwaysOkRepo "b" "op5" "t5" exMoveState).2 = true ∧
      ((∀ m ∈ (deleteNote alwaysOkRepo "b" "op5" "t5" exMoveState).1.notes, m.id ≠ "b") ∧
      (exMoveState.selectedNoteId = some "b" →
        (deleteNote alwaysOkRepo "b" "op5" "t5" exMoveState).1.selectedNoteId = none) ∧
      (∀ m ∈ exMoveState.notes, m.id ≠ "b" →
        m ∈ (deleteNote alwaysOkRepo "b" "op5" "t5" exMoveState).1.notes)) :=
  ⟨by decide, deleteNote_removes_note_and_selection alwaysOkRepo "b" "op5" "t5"
    exMoveState (by decide)⟩

/-- The replaced note is a member of the updated collection whenever the
searched id occurs. -/
lemma mem_replaceById (notes : List Note) (noteId : String) (u : Note)
    (hex : ∃ x ∈ notes, (x.id == noteId) = true) :
    u ∈ replaceById notes noteId u := by
  have hlt : notes.findIdx (fun m => m.id == noteId) < notes.length :=
    List.findIdx_lt_length_of_exists hex
  simp only [replaceById]
  rw [if_pos hlt]
  have hlt' : notes.findIdx (fun m => m.id == noteId) <
      (notes.set (notes.findIdx (fun m => m.id == noteId)) u).length := by
    simpa using hlt
  have hmem := List.getElem_mem hlt'
  rw [List.getElem_set_self hlt'] at hmem
  exact hmem

/-! ### C3 — moveNote and hierarchy validation -/

/-- C3 counterexample: in the offline two-note hierarchy `a → b`, note `b`
is a descendant of `a` (so `canMoveNote` would forbid the move), yet
`moveNote` of `a` under `b` succeeds, mutates the collection, and re-points
`a`'s parent at `b` — no `HierarchyError` rejection, no unchanged
collection. -/
theorem moveNote_descendant_not_rejected_cex :
    ((getDescendantsTop exMoveState.notes "a").any (fun d => d.id == "b") = true) ∧
    canMoveNote exMoveState.notes "a" (some "b") = false ∧
    (moveNote alwaysOkRepo "a" (some "b") 0 "op9" "t9" exMoveState).2 = true ∧
    (moveNote alwaysOkRepo "a" (some "b") 0 "op9" "t9" exMoveState).1.notes ≠
      exMoveState.notes ∧
    (∃ m ∈ (moveNote alwaysOkRepo "a" (some "b") 0 "op9" "t9" exMoveState).1.notes,
      m.id = "a" ∧ m.parent_id = some "b") := by
  decide

/-- C3 amended: `moveNote` performs no hierarchy validation whatsoever —
offline, for any existing note and *any* target parent (its own descendant
included), it reports success and the collection now holds the note
re-parented to the target with the requested position, stamped `pending`.
The cycle check exists only in the separate `canMoveNote` helper, which
`moveNote` never consults. -/
theorem moveNote_applies_without_hierarchy_check (repo : Repo) (noteId : String)
    (newParentId : Option String) (newPosition : Int) (freshOpId now : String)
    (s : NotesState) (n : Note) (hoff : s.isOnline = false) (hn : n ∈ s.notes)
    (hid : n.id = noteId) :
    (moveNote repo noteId newParentId newPosition freshOpId now s).2 = true ∧
    ∃ m ∈ (moveNote repo noteId newParentId newPosition freshOpId now s).1.notes,
      m.id = noteId ∧ m.parent_id = newParentId ∧ m.position = newPosition ∧
      m.sync_status = .pending := by
  refine ⟨rfl, ?_⟩
  have hex : ∃ x ∈ s.notes, (x.id == noteId) = true := ⟨n, hn, beq_iff_eq.mpr hid⟩
  obtain ⟨e, hfind⟩ : ∃ e, s.notes.find? (fun m => m.id == noteId) = some e := by
    have hs := List.find?_isSome.mpr hex
    exact Option.isSome_iff_exists.mp hs
  simp only [moveNote, updateNote, hoff, Bool.false_eq_true, if_false,
    buildNoteTreeAction, addToOfflineQueue, hfind]
  exact ⟨_, mem_replaceById s.notes noteId _ hex, rfl, rfl, rfl, rfl⟩

/-- Witness for C3: moving `a` below its descendant `b` offline. -/
theorem moveNote_applies_without_hierarchy_check_witness :
    exMoveState.isOnline = false ∧ noteA ∈ exMoveState.notes ∧ noteA.id = "a" ∧
      ((moveNote alwaysOkRepo "a" (some "b") 7 "op8" "t8" exMoveState).2 = true ∧
      ∃ m ∈ (moveNote alwaysOkRepo "a" (some "b") 7 "op8" "t8" exMoveState).1.notes,
        m.id = "a" ∧ m.parent_id = some "b" ∧ m.position = 7 ∧
        m.sync_status = .pending) :=
  ⟨rfl, by decide, rfl,
    moveNote_applies_without_hierarchy_check alwaysOkRepo "a" (some "b") 7 "op8" "t8"
      exMoveState noteA rfl (by decide) rfl⟩

/-! ### C2 — offline mutations and queue length -/

/-- One offline mutation grows the queue by exactly one entry when it
succeeds (a create or delete always does; an update only when the target
note exists) and keeps the store offline. -/
lemma applyOfflineMutation_queue (repo : Repo) (m : OfflineMutation)
    (s : NotesState) (hoff : s.isOnline = false) :
    (applyOfflineMutation repo m s).1.offlineQueue.length =
      s.offlineQueue.length + (if (applyOfflineMutation repo m s).2 then 1 else 0) ∧
    (applyOfflineMutation repo m s).1.isOnline = false := by
  cases m with
  | mcreate input freshNoteId freshOpId now =>
      simp [applyOfflineMutation, createNote, hoff, addToOfflineQueue,
        buildNoteTreeAction]
  | mupdate input freshOpId now =>
      cases hfind : s.notes.find? (fun n => n.id == input.id) with
      | none =>
          simp [applyOfflineMutation, updateNote, hoff, hfind]
      | some e =>
          simp [applyOfflineMutation, updateNote, hoff, hfind, addToOfflineQueue,
            replaceById]
  | mdelete noteId freshOpId now =>
      simp [applyOfflineMutation, deleteNote, hoff, addToOfflineQueue,
        deleteNoteCommit, buildNoteTreeAction]

/-- Running a sequence of offline mutations grows the queue by exactly the
number of successful ones, and the store stays offline. -/
lemma runMutations_queue_length (repo : Repo) (ms : List OfflineMutation) :
    ∀ s : NotesState, s.isOnline = false →
      (runMutations repo ms s).1.offlineQueue.length =
        s.offlineQueue.length + (runMutations repo ms s).2 ∧
      (runMutations repo ms s).1.isOnline = false := by
  induction ms with
  | nil => intro s h; exact ⟨by simp [runMutations], by simpa [runMutations] using h⟩
  | cons m ms ih =>
      intro s h
      have h1 := applyOfflineMutation_queue repo m s h
      have h2 := ih (applyOfflineMutation repo m s).1 h1.2
      refine ⟨?_, by simpa [runMutations] using h2.2⟩
      have e1 := h1.1
      have e2 := h2.1
      simp only [runMutations]
      omega

/-- Draining always empties the queue and never touches the note
collection, whatever the repository answers. -/
lemma processOfflineQueue_clears (repo : Repo) (s : NotesState) :
    (processOfflineQueue repo s).1.offlineQueue = [] ∧
    (processOfflineQueue repo s).1.notes = s.notes := by
  unfold processOfflineQueue clearOfflineQueue
  split
  · next h =>
      refine ⟨?_, rfl⟩
      have : s.offlineQueue.length = 0 := by simpa using h
      exact List.eq_nil_of_length_eq_zero this
  · exact ⟨rfl, rfl⟩

/-- C2 amended: for every sequence of mutations performed while offline,
the queue grows by exactly the number of mutations that were issued
successfully (creates and deletes always; updates only when the target
note exists, mirroring the non-null returns of the actions); draining the
result against the always-succeeding repository stub empties the queue but
leaves the note collection — including every note's `sync_status` —
untouched.  (Statuses only change later, when the collection is refetched
from the remote source.) -/
theorem offline_mutations_queue_and_drain (repo : Repo)
    (ms : List OfflineMutation) (s : NotesState) (hoff : s.isOnline = false) :
    (runMutations repo ms s).1.offlineQueue.length =
      s.offlineQueue.length + (runMutations repo ms s).2 ∧
    (processOfflineQueue alwaysOkRepo (runMutations repo ms s).1).1.offlineQueue = [] ∧
    (processOfflineQueue alwaysOkRepo (runMutations repo ms s).1).1.notes =
      (runMutations repo ms s).1.notes :=
  ⟨(runMutations_queue_length repo ms s hoff).1,
   (processOfflineQueue_clears alwaysOkRepo _).1,
   (processOfflineQueue_clears alwaysOkRepo _).2⟩

/-- An offline store with nothing queued yet. -/
def exOfflineStart : NotesState := { initialState with isOnline := false }

/-- Witness for C2: one offline create followed by one offline delete. -/
theorem offline_mutations_queue_and_drain_witness :
    exOfflineStart.isOnline = false ∧
      ((runMutations alwaysOkRepo
          [.mcreate exCreateInput "n1" "q1" "t1", .mdelete "n1" "q2" "t2"]
          exOfflineStart).1.offlineQueue.length =
        exOfflineStart.offlineQueue.length +
          (runMutations alwaysOkRepo
            [.mcreate exCreateInput "n1" "q1" "t1", .mdelete "n1" "q2" "t2"]
            exOfflineStart).2 ∧
      (processOfflineQueue alwaysOkRepo
        (runMutations alwaysOkRepo
          [.mcreate exCreateInput "n1" "q1" "t1", .mdelete "n1" "q2" "t2"]
          exOfflineStart).1).1.offlineQueue = [] ∧
      (processOfflineQueue alwaysOkRepo
        (runMutations alwaysOkRepo
          [.mcreate exCreateInput "n1" "q1" "t1", .mdelete "n1" "q2" "t2"]
          exOfflineStart).1).1.notes =
        (runMutations alwaysOkRepo
          [.mcreate exCreateInput "n1" "q1" "t1", .mdelete "n1" "q2" "t2"]
          exOfflineStart).1.notes) :=
  ⟨rfl, offline_mutations_queue_and_drain alwaysOkRepo
    [.mcreate exCreateInput "n1" "q1" "t1", .mdelete "n1" "q2" "t2"]
    exOfflineStart rfl⟩

/-- C2 counterexample: create one note offline (it is stored with
`sync_status = 'pending'`), then drain against the always-succeeding
repository stub.  The queue does reach length 0, but no note's
`sync_status` becomes `'synced'` — draining never touches the collection,
refuting the claim's second half. -/
theorem drain_not_marking_synced_cex :
    (processOfflineQueue alwaysOkRepo
      (createNote alwaysOkRepo exCreateInput "n1" "q1" "t1" exOfflineStart).1).1.offlineQueue
        = [] ∧
    (createNote alwaysOkRepo exCreateInput "n1" "q1" "t1" exOfflineStart).1.notes.length
        = 1 ∧
    ¬(∀ nt ∈ (processOfflineQueue alwaysOkRepo
        (createNote alwaysOkRepo exCreateInput "n1" "q1" "t1" exOfflineStart).1).1.notes,
      nt.sync_status = .synced) := by
  decide

/-! ### C4 / C5 — orphans and archived notes in the tree -/

/-- C4 counterexample: a note whose `parent_id` names a non-existent
parent is dropped from the materialized tree entirely — the tree is empty,
so the orphan does not appear as a root (nor anywhere else). -/
theorem orphan_dropped_from_tree_cex :
    orphanNote ∈ exOrphanNotes ∧
    orphanNote.parent_id = some "missing" ∧
    (∀ m ∈ exOrphanNotes, m.id ≠ "missing") ∧
    buildNoteTree exOrphanNotes = [] ∧
    ¬(∃ t ∈ buildNoteTree exOrphanNotes, t.id = orphanNote.id) := by
  refine ⟨by decide, rfl, by decide, rfl, ?_⟩
  rintro ⟨t, ht, -⟩
  rw [show buildNoteTree exOrphanNotes = [] from rfl] at ht
  exact absurd ht (List.not_mem_nil t)

/-- C5 counterexample: an archived root note is *not* excluded from the
materialized tree — it appears as a root carrying its archived flag,
refuting "archived notes are excluded from traversal". -/
theorem archived_note_in_tree_cex :
    archivedNote.is_archived = true ∧
    archivedNote ∈ exArchivedNotes ∧
    ∃ t ∈ buildNoteTree exArchivedNotes, t.id = archivedNote.id ∧
      t.is_archived = true := by
  refine ⟨rfl, by decide, buildTreeNode exArchivedNotes 1 archivedNote 0, ?_, ?_, ?_⟩
  · show buildTreeNode _ 1 archivedNote 0 ∈ buildNoteTree exArchivedNotes
    rw [show buildNoteTree exArchivedNotes
        = [buildTreeNode exArchivedNotes 1 archivedNote 0] from rfl]
    exact List.mem_singleton.mpr rfl
  · rw [buildTreeNode_id]
  · rw [buildTreeNode_archived]
    rfl

/-- C5 amended: the tree materializer performs no archived-filtering at
all — every root note, archived or not, appears in the tree carrying its
archived flag — and rebuilding the tree leaves the flat note collection
untouched (archived notes are retained there). -/
theorem archived_notes_materialized_in_tree :
    (∀ (notes : List Note) (n : Note), n ∈ notes → n.parent_id = none →
      ∃ t ∈ buildNoteTree notes, t.id = n.id ∧ t.is_archived = n.is_archived) ∧
    (∀ s : NotesState, (buildNoteTreeAction s).notes = s.notes) := by
  constructor
  · intro notes n hn hroot
    have hfilter : n ∈ notes.filter (fun note => note.parent_id.isNone) :=
      List.mem_filter.mpr ⟨hn, by rw [hroot]; rfl⟩
    have hsorted :
        n ∈ sortByPosition (notes.filter (fun note => note.parent_id.isNone)) :=
      (List.perm_insertionSort _ _).mem_iff.mpr hfilter
    exact ⟨buildTreeNode notes notes.length n 0,
      List.mem_map_of_mem _ hsorted,
      buildTreeNode_id notes notes.length n 0,
      buildTreeNode_archived notes notes.length n 0⟩
  · intro s
    rfl

/-- Witness for C5 at the archived fixture. -/
theorem archived_notes_materialized_in_tree_witness :
    archivedNote ∈ exArchivedNotes ∧ archivedNote.parent_id = none ∧
      (∃ t ∈ buildNoteTree exArchivedNotes, t.id = archivedNote.id ∧
        t.is_archived = archivedNote.is_archived) :=
  ⟨by decide, rfl,
    archived_notes_materialized_in_tree.1 exArchivedNotes archivedNote (by decide) rfl⟩

/-! ### Tree lemmas for C4 and C6 -/

/-- Two collection members with equal ids are equal when ids are
duplicate-free. -/
lemma noteId_inj (notes : List Note) (hids : (notes.map Note.id).Nodup)
    {x y : Note} (hx : x ∈ notes) (hy : y ∈ notes) (hxy : x.id = y.id) :
    x = y :=
  List.inj_on_of_nodup_map hids hx hy hxy

lemma sortByPosition_perm (l : List Note) : (sortByPosition l).Perm l :=
  List.perm_insertionSort _ _

lemma sortByPosition_mem (l : List Note) (a : Note) :
    a ∈ sortByPosition l ↔ a ∈ l :=
  (sortByPosition_perm l).mem_iff

lemma sortByPosition_sorted (l : List Note) :
    (sortByPosition l).Pairwise (fun a b => a.position ≤ b.position) := by
  have h := List.sorted_insertionSort (fun a b : Note => a.position ≤ b.position) l
  exact h

/-- Every member of an ancestor chain lies in the collection. -/
lemma isAncChain_subset (notes : List Note) :
    ∀ (anc : List Note) (n : Note), IsAncChain notes anc n →
      ∀ a ∈ anc, a ∈ notes := by
  intro anc
  induction anc with
  | nil => intro n _ a ha; exact absurd ha (List.not_mem_nil a)
  | cons b rest ih =>
      intro n h a ha
      obtain ⟨-, hbmem, hrest⟩ := h
      rcases List.mem_cons.mp ha with rfl | ha'
      · exact hbmem
      · exact ih b hrest a ha'

/-- Every chain member is either the final root or points at a deeper
chain member. -/
lemma isAncChain_parent_shape (notes : List Note) :
    ∀ (anc : List Note) (n : Note), IsAncChain notes anc n →
      ∀ c ∈ anc, c.parent_id = none ∨ ∃ a ∈ anc, c.parent_id = some a.id := by
  intro anc
  induction anc with
  | nil => intro n _ c hc; exact absurd hc (List.not_mem_nil c)
  | cons b rest ih =>
      intro n h c hc
      obtain ⟨-, -, hrest⟩ := h
      rcases List.mem_cons.mp hc with rfl | hc'
      · cases rest with
        | nil => exact Or.inl hrest
        | cons d rest' =>
            obtain ⟨hpd, -, -⟩ := hrest
            exact Or.inr ⟨d, List.mem_cons_of_mem _ (List.mem_cons_self d rest'), hpd⟩
      · rcases ih b hrest c hc' with hnone | ⟨a, ha, hpa⟩
        · exact Or.inl hnone
        · exact Or.inr ⟨a, List.mem_cons_of_mem _ ha, hpa⟩

/-- A child of the chain head is new to the chain: with duplicate-free
ids, following children from a root can never revisit a note. -/
lemma chain_extend_nodup (notes : List Note) (hids : (notes.map Note.id).Nodup)
    (note : Note) (anc : List Note) (c : Note) (hnote : note ∈ notes)
    (hchain : IsAncChain notes anc note) (hnodup : (note :: anc).Nodup)
    (hcp : c.parent_id = some note.id) :
    (c :: note :: anc).Nodup := by
  refine List.nodup_cons.mpr ⟨?_, hnodup⟩
  intro hmem
  have hnin := (List.nodup_cons.mp hnodup).1
  rcases List.mem_cons.mp hmem with rfl | hmem'
  · cases anc with
    | nil =>
        rw [show IsAncChain notes [] c from hchain] at hcp
        exact Option.noConfusion hcp
    | cons a rest =>
        obtain ⟨hp, hamem, -⟩ := hchain
        rw [hp] at hcp
        have haeq : a = c := noteId_inj notes hids hamem hnote (Option.some.inj hcp)
        exact hnin (haeq ▸ List.mem_cons_self a rest)
  · rcases isAncChain_parent_shape notes anc note hchain c hmem' with hnone | ⟨a, ha, hpa⟩
    · rw [hcp] at hnone
      exact Option.noConfusion hnone
    · rw [hpa] at hcp
      have haeq : a = note :=
        noteId_inj notes hids (isAncChain_subset notes anc note hchain a ha) hnote
          (Option.some.inj hcp)
      exact hnin (haeq ▸ ha)

/-- A duplicate-free chain bounds the depth by the collection size. -/
lemma chain_length_le (notes : List Note) (note : Note) (anc : List Note)
    (hnote : note ∈ notes) (hchain : IsAncChain notes anc note)
    (hnodup : (note :: anc).Nodup) : anc.length + 1 ≤ notes.length := by
  have hsub : (note :: anc) ⊆ notes := by
    intro x hx
    rcases List.mem_cons.mp hx with rfl | hx'
    · exact hnote
    · exact isAncChain_subset notes anc note hchain x hx'
  have := (List.subperm_of_subset hnodup hsub).length_le
  simpa using this

/-- Children produced at successor fuel. -/
lemma buildTreeNode_children_succ (notes : List Note) (f : Nat) (note : Note)
    (depth : Nat) :
    (buildTreeNode notes (f + 1) note depth).children =
      (sortByPosition (notes.filter (fun n => n.parent_id == some note.id))).map
        (fun child => buildTreeNode notes f child (depth + 1)) := rfl

/-- Children produced at zero fuel. -/
lemma buildTreeNode_children_zero (notes : List Note) (note : Note) (depth : Nat) :
    (buildTreeNode notes 0 note depth).children = [] := rfl

/-- Core invariant of the materializer: inside any tree built from a
collection member with a valid duplicate-free ancestor chain and enough
fuel, every node's children list is exactly the position-sorted filter of
the collection on its id, and children sit one level deeper. -/
lemma buildTreeNode_subtree_ok (notes : List Note)
    (hids : (notes.map Note.id).Nodup) :
    ∀ (fuel : Nat) (note : Note) (anc : List Note), note ∈ notes →
      IsAncChain notes anc note → (note :: anc).Nodup →
      notes.length ≤ fuel + anc.length →
      ∀ s, SubtreeOf s (buildTreeNode notes fuel note anc.length) →
        s.children.map (fun c => (c.id, c.position)) =
          (sortByPosition (notes.filter (fun n => n.parent_id == some s.id))).map
            (fun n => (n.id, n.position)) ∧
        ∀ c ∈ s.children, c.depth = s.depth + 1 := by
  intro fuel
  induction fuel with
  | zero =>
      intro note anc hnote hchain hnodup hlen s _
      exfalso
      have := chain_length_le notes note anc hnote hchain hnodup
      omega
  | succ f ih =>
      intro note anc hnote hchain hnodup hlen s hs
      cases hs with
      | refl =>
          constructor
          · show ((sortByPosition _).map _).map _ = _
            rw [List.map_map]
            refine List.map_congr_left ?_
            intro c _
            show ((buildTreeNode notes f c (anc.length + 1)).id,
                (buildTreeNode notes f c (anc.length + 1)).position) = _
            rw [buildTreeNode_id, buildTreeNode_position]
          · intro c hc
            rw [buildTreeNode_children_succ] at hc
            obtain ⟨c', -, rfl⟩ := List.mem_map.mp hc
            rw [buildTreeNode_depth]
            rfl
      | child hsub hcmem =>
          rw [buildTreeNode_children_succ] at hcmem
          obtain ⟨c', hc'mem, rfl⟩ := List.mem_map.mp hcmem
          have hc'filter := (sortByPosition_mem _ _).mp hc'mem
          obtain ⟨hc'notes, hc'p⟩ := List.mem_filter.mp hc'filter
          have hc'parent : c'.parent_id = some note.id := by simpa using hc'p
          have hchain' : IsAncChain notes (note :: anc) c' := ⟨hc'parent, hnote, hchain⟩
          have hnodup' :=
            chain_extend_nodup notes hids note anc c' hnote hchain hnodup hc'parent
          have hlen' : notes.length ≤ f + (note :: anc).length := by
            simp only [List.length_cons]
            omega
          exact ih c' (note :: anc) hc'notes hchain' hnodup' hlen' s hsub

/-- C6: after every rebuild from a duplicate-free collection, every root
node has depth 0 and throughout the tree every node's children are exactly
the notes whose `parent_id` equals the node's id (as an id/position
permutation of the filter), ordered ascending by `position`, each one
level deeper than its parent — so depth counts ancestor hops. -/
theorem tree_children_sorted_and_depth (notes : List Note)
    (hids : (notes.map Note.id).Nodup) :
    ∀ t ∈ buildNoteTree notes, t.depth = 0 ∧
      ∀ s, SubtreeOf s t →
        ((s.children.map (fun c => (c.id, c.position))).Perm
          ((notes.filter (fun n => n.parent_id == some s.id)).map
            (fun n => (n.id, n.position)))) ∧
        ((s.children.map NoteTree.position).Pairwise (· ≤ ·)) ∧
        (∀ c ∈ s.children, c.depth = s.depth + 1) := by
  intro t ht
  obtain ⟨r, hrmem, rfl⟩ := List.mem_map.mp ht
  have hrfilter := (sortByPosition_mem _ _).mp hrmem
  obtain ⟨hrnotes, hrroot'⟩ := List.mem_filter.mp hrfilter
  have hrroot : r.parent_id = none := by
    simpa using hrroot'
  refine ⟨buildTreeNode_depth _ _ _ _, ?_⟩
  intro s hs
  have key := buildTreeNode_subtree_ok notes hids notes.length r [] hrnotes hrroot
    (List.nodup_singleton r) (by simp) s hs
  obtain ⟨heq, hdepth⟩ := key
  refine ⟨?_, ?_, hdepth⟩
  · rw [heq]
    exact (sortByPosition_perm _).map _
  · have hpos : s.children.map NoteTree.position =
        (sortByPosition (notes.filter (fun n => n.parent_id == some s.id))).map
          Note.position := by
      have h2 := congrArg (List.map Prod.snd) heq
      simpa [List.map_map, Function.comp] using h2
    rw [hpos]
    exact List.pairwise_map.mpr (sortByPosition_sorted _)

/-- Witness for C6 at the two-note hierarchy. -/
theorem tree_children_sorted_and_depth_witness :
    ((exMoveState.notes.map Note.id).Nodup) ∧
      (∀ t ∈ buildNoteTree exMoveState.notes, t.depth = 0 ∧
        ∀ s, SubtreeOf s t →
          ((s.children.map (fun c => (c.id, c.position))).Perm
            ((exMoveState.notes.filter (fun n => n.parent_id == some s.id)).map
              (fun n => (n.id, n.position)))) ∧
          ((s.children.map NoteTree.position).Pairwise (· ≤ ·)) ∧
          (∀ c ∈ s.children, c.depth = s.depth + 1)) :=
  ⟨by decide, tree_children_sorted_and_depth exMoveState.notes (by decide)⟩

/-- Provenance of materialized nodes: every node of a tree built from a
collection member either mirrors that member, or mirrors some collection
member whose stated parent is itself a collection member. -/
lemma buildTreeNode_subtree_src (notes : List Note) :
    ∀ (fuel : Nat) (note : Note) (depth : Nat), note ∈ notes →
      ∀ s, SubtreeOf s (buildTreeNode notes fuel note depth) →
        (s.id = note.id ∧ s.parent_id = note.parent_id) ∨
        ∃ m ∈ notes, ∃ q ∈ notes, s.id = m.id ∧ s.parent_id = m.parent_id ∧
          m.parent_id = some q.id := by
  intro fuel
  induction fuel with
  | zero =>
      intro note depth hnote s hs
      cases hs with
      | refl => exact Or.inl ⟨rfl, rfl⟩
      | child hsub hcmem =>
          rw [buildTreeNode_children_zero] at hcmem
          exact absurd hcmem (List.not_mem_nil _)
  | succ f ih =>
      intro note depth hnote s hs
      cases hs with
      | refl => exact Or.inl ⟨buildTreeNode_id _ _ _ _, buildTreeNode_parent _ _ _ _⟩
      | child hsub hcmem =>
          rw [buildTreeNode_children_succ] at hcmem
          obtain ⟨c', hc'mem, rfl⟩ := List.mem_map.mp hcmem
          have hc'filter := (sortByPosition_mem _ _).mp hc'mem
          obtain ⟨hc'notes, hc'p⟩ := List.mem_filter.mp hc'filter
          have hc'parent : c'.parent_id = some note.id := by simpa using hc'p
          rcases ih c' (depth + 1) hc'notes s hsub with ⟨h1, h2⟩ | ⟨m, hm, q, hq, h1, h2, h3⟩
          · exact Or.inr ⟨c', hc'notes, note, hnote, h1, h2, hc'parent⟩
          · exact Or.inr ⟨m, hm, q, hq, h1, h2, h3⟩

/-- C4 amended: a note whose non-null `parent_id` names no existing note
is dropped from the materialized tree entirely — it appears nowhere in the
tree, neither as a root nor as a child (only notes with null `parent_id`
become roots, and every child node's stated parent exists in the
collection). -/
theorem orphan_excluded_from_tree (notes : List Note)
    (hids : (notes.map Note.id).Nodup) (n : Note) (p : String) (hn : n ∈ notes)
    (hp : n.parent_id = some p) (hmiss : ∀ m ∈ notes, m.id ≠ p) :
    ∀ t ∈ buildNoteTree notes, ∀ s, SubtreeOf s t → s.id ≠ n.id := by
  intro t ht s hs heq
  obtain ⟨r, hrmem, rfl⟩ := List.mem_map.mp ht
  have hrfilter := (sortByPosition_mem _ _).mp hrmem
  obtain ⟨hrnotes, hrroot'⟩ := List.mem_filter.mp hrfilter
  have hrroot : r.parent_id = none := by simpa using hrroot'
  rcases buildTreeNode_subtree_src notes notes.length r 0 hrnotes s hs with
    ⟨h1, -⟩ | ⟨m, hm, q, hq, h1, -, h3⟩
  · have : r = n := noteId_inj notes hids hrnotes hn (h1.symm.trans heq)
    rw [this, hp] at hrroot
    exact Option.noConfusion hrroot
  · have hmn : m = n := noteId_inj notes hids hm hn (h1.symm.trans heq)
    rw [hmn, hp] at h3
    exact hmiss q hq (Option.some.inj h3).symm

/-- Witness for C4: the orphan beside an ordinary root. -/
theorem orphan_excluded_from_tree_witness :
    (((noteA :: exOrphanNotes).map Note.id).Nodup) ∧
      orphanNote ∈ noteA :: exOrphanNotes ∧
      orphanNote.parent_id = some "missing" ∧
      (∀ m ∈ noteA :: exOrphanNotes, m.id ≠ "missing") ∧
      (∀ t ∈ buildNoteTree (noteA :: exOrphanNotes), ∀ s, SubtreeOf s t →
        s.id ≠ orphanNote.id) :=
  ⟨by decide, by decide, rfl, by decide,
    orphan_excluded_from_tree (noteA :: exOrphanNotes) (by decide) orphanNote
      "missing" (by decide) rfl (by decide)⟩
